import Mathlib

/-!
Verification development for the periodic-operation scheduler and the log-upload
worker of the WALinuxAgent repository.

Shallow embedding conventions:
* wall-clock instants and durations are integer numbers of seconds
  (`Nat` for the periodic-operation module, `Int` for the log-upload module,
  whose code subtracts a period from a clock reading);
* one call to a method is modelled with a single clock reading `now` standing
  for the `datetime.datetime.utcnow()` calls made during that call;
* a fallible external call is modelled by its outcome: `none` for a normal
  return, `some e` for an exception rendered as the string `e`
  (`Except String α` when the call also produces a value).
-/

/-- `PeriodicOperation._LOG_WARNING_PERIOD`: failures are reported at most every
hour; 60 minutes, in seconds. -/
def LOG_WARNING_PERIOD : Nat := 3600

/-- State of a `PeriodicOperation` in the release-2.2.53 variant of
`periodic_operation.py`: the task name, the period, `_next_run_time`, and the
warning-deduplication pair `_last_warning` / `_last_warning_time`. -/
structure PeriodicOperation where
  name : String
  period : Nat
  next_run_time : Nat
  last_warning : Option String
  last_warning_time : Option Nat
deriving DecidableEq

/-- `PeriodicOperation.__init__` (release-2.2.53 variant): the period is stored
as given (the `timedelta(seconds=period)` conversion is the identity in a
seconds-valued model) and `_next_run_time = datetime.datetime.utcnow()` is the
construction-time clock reading `now`. -/
def PeriodicOperation.init (name : String) (period : Nat) (now : Nat) : PeriodicOperation :=
  { name := name, period := period, next_run_time := now,
    last_warning := none, last_warning_time := none }

/-- The warning text built on line 69 of `periodic_operation.py`. -/
def mkWarning (name e : String) : String :=
  "Failed to " ++ name ++ ": " ++ e ++ " --- [NOTE: Will not log the same error for the next hour]"

/-- The guard on line 70 of `periodic_operation.py`:
`warning != self._last_warning or self._last_warning_time is None or
 datetime.datetime.utcnow() >= self._last_warning_time + self._LOG_WARNING_PERIOD`. -/
def shouldWarn (last_warning : Option String) (last_warning_time : Option Nat)
    (warning : String) (now : Nat) : Bool :=
  (some warning != last_warning) || last_warning_time.isNone ||
    (match last_warning_time with
     | none => true
     | some t => decide (t + LOG_WARNING_PERIOD ≤ now))

/-- Result of one `run()` call: the post-state, whether the operation was
invoked, and whether a warning was logged. -/
structure RunResult (α : Type) where
  state : α
  invoked : Bool
  warned : Bool
deriving DecidableEq

/-- `PeriodicOperation.run` (release-2.2.53 variant, lines 62-73).
`actionResult` is the behaviour of `self._operation()`: `none` means it returns
normally, `some e` means it raises an exception rendered as `e`.  The `finally`
of lines 65-66 sets `_next_run_time = now + period` whether or not the
operation raised; a raised exception then reaches the `except` of line 67,
which builds the warning and logs it only when the line-70 guard passes,
recording `_last_warning_time` and `_last_warning` when it does. -/
def PeriodicOperation.run (op : PeriodicOperation) (now : Nat) (actionResult : Option String) :
    RunResult PeriodicOperation :=
  if op.next_run_time ≤ now then
    let op' := { op with next_run_time := now + op.period }
    match actionResult with
    | none => { state := op', invoked := true, warned := false }
    | some e =>
      let warning := mkWarning op.name e
      if shouldWarn op'.last_warning op'.last_warning_time warning now then
        { state := { op' with last_warning := some warning, last_warning_time := some now },
          invoked := true, warned := true }
      else
        { state := op', invoked := true, warned := false }
  else
    { state := op, invoked := false, warned := false }

/-- Modelled from the spec: `time_until_due(now)` is spec vocabulary — the code
exposes only the accessor `next_run_time()` (lines 77-78); the spec defines
`time_until_due` as the non-negative duration until that time, clamped at
zero.  Truncated `Nat` subtraction is exactly that clamped difference. -/
def PeriodicOperation.time_until_due (op : PeriodicOperation) (now : Nat) : Nat :=
  op.next_run_time - now

/-- Python's builtin `min` over a list; `min([])` raises `ValueError`,
modelled as `none`. -/
def pyMin : List Nat → Option Nat
  | [] => none
  | x :: xs => some (xs.foldl Nat.min x)

/-- `PeriodicOperation.sleep_until_next_operation` (lines 80-93): takes the
minimum of the operations' `next_run_time()`, subtracts the current clock
reading, and calls `time.sleep(sleep_seconds)` only when `sleep_seconds > 0`.
Returns `none` when `min([])` raises `ValueError` (empty operations list),
otherwise `some d` where `d` is the number of seconds the caller is blocked
(`0` means the function returns immediately). -/
def sleep_until_next_operation (operations : List PeriodicOperation) (now : Nat) : Option Int :=
  match pyMin (operations.map (fun op => op.next_run_time)) with
  | none => none
  | some next_operation_time =>
    let sleep_seconds : Int := (next_operation_time : Int) - (now : Int)
    some (if 0 < sleep_seconds then sleep_seconds else 0)

/-- State of a `PeriodicOperation` in the HEAD variant of
`periodic_operation.py`: `_last_run` (with `none` meaning never run) instead of
`_next_run_time`. -/
structure PeriodicOperationHead where
  name : String
  period : Nat
  last_run : Option Nat
  last_warning : Option String
  last_warning_time : Option Nat
deriving DecidableEq

/-- `PeriodicOperation.__init__` (HEAD variant): `_last_run = None`. -/
def PeriodicOperationHead.init (name : String) (period : Nat) : PeriodicOperationHead :=
  { name := name, period := period, last_run := none,
    last_warning := none, last_warning_time := none }

/-- The due check of line 55 (HEAD variant):
`self._last_run is None or datetime.datetime.utcnow() >= self._last_run + self._period`. -/
def headDue (last_run : Option Nat) (period now : Nat) : Bool :=
  match last_run with
  | none => true
  | some lr => decide (lr + period ≤ now)

/-- `PeriodicOperation.run` (HEAD variant, lines 54-59 plus the shared warning
code of lines 69-73): the `finally` sets `_last_run = now` whether or not the
operation raised. -/
def PeriodicOperationHead.run (op : PeriodicOperationHead) (now : Nat)
    (actionResult : Option String) : RunResult PeriodicOperationHead :=
  if headDue op.last_run op.period now then
    let op' := { op with last_run := some now }
    match actionResult with
    | none => { state := op', invoked := true, warned := false }
    | some e =>
      let warning := mkWarning op.name e
      if shouldWarn op'.last_warning op'.last_warning_time warning now then
        { state := { op' with last_warning := some warning, last_warning_time := some now },
          invoked := true, warned := true }
      else
        { state := op', invoked := true, warned := false }
  else
    { state := op, invoked := false, warned := false }

/-- The sequence of due/not-due decisions (the `invoked` flags) of the HEAD
variant over a list of calls, each call a clock reading paired with the
operation's behaviour at that call. -/
def headTrace (op : PeriodicOperationHead) : List (Nat × Option String) → List Bool
  | [] => []
  | c :: rest =>
    let r := op.run c.1 c.2
    r.invoked :: headTrace r.state rest

/-- The sequence of due/not-due decisions of the release-2.2.53 variant over a
list of calls. -/
def relTrace (op : PeriodicOperation) : List (Nat × Option String) → List Bool
  | [] => []
  | c :: rest =>
    let r := op.run c.1 c.2
    r.invoked :: relTrace r.state rest

/-- `LogUploadHandler.LOG_UPLOAD_PERIOD`: one hour, in seconds. -/
def LOG_UPLOAD_PERIOD : Int := 3600

/-- A structured diagnostic event passed to `add_event` (success flag and
message; name, version and operation are fixed at every call site). -/
structure DiagEvent where
  is_success : Bool
  message : String
deriving DecidableEq

/-- `LogUploadHandler.collect_and_upload_logs` (lines 89-122).
`collectResult` is the behaviour of `log_collector.collect_logs()`
(`Except.ok path` = returns an archive path, `Except.error e` = raises);
`archive_size` is `os.path.getsize(archive_path)` and `duration` the elapsed
milliseconds; `uploadResult` is the behaviour of `self.protocol.put_vm_logs()`.
Returns the diagnostic events emitted, whether `put_vm_logs` was invoked, and
the exception (if any) escaping the method.  On collect success, the success
message formats `{0}` twice, so `archive_size` appears in both slots of the
source's format string; on collect failure the method emits a failure event
and returns before the upload step. -/
def collect_and_upload_logs (collectResult : Except String String)
    (archive_size duration : Nat) (uploadResult : Option String) :
    List DiagEvent × Bool × Option String :=
  match collectResult with
  | Except.ok _archive_path =>
    let msg := "Successfully collected logs. Archive size: " ++ toString archive_size ++
      "b, elapsed time: " ++ toString archive_size ++ " ms"
    ([{ is_success := true, message := msg }], true, uploadResult)
  | Except.error e =>
    let msg := "Failed to collect logs. Elapsed time: " ++ toString duration ++
      " ms. Error: " ++ e
    ([{ is_success := false, message := msg }], false, none)

deriving instance DecidableEq for Except

/-- The external behaviours consumed by one iteration of the
`LogUploadHandler.daemon` loop: the clock reading and the outcomes of
`update_host_plugin_from_goal_state`, `collect_logs`, `getsize`/elapsed time,
and `put_vm_logs`. -/
structure CycleInputs where
  now : Int
  refreshResult : Option String
  collectResult : Except String String
  archive_size : Nat
  duration : Nat
  uploadResult : Option String
deriving DecidableEq

/-- Outcome of one full iteration of the `daemon` loop. -/
structure IterationResult where
  last_log_upload_time : Option Int
  events : List DiagEvent
  due : Bool
  uploadInvoked : Bool
  warned : Bool
deriving DecidableEq

/-- The `try` block of one iteration of `LogUploadHandler.daemon`
(lines 75-82): when `last_log_upload_time` is `None` it is first set to
`now - LOG_UPLOAD_PERIOD`; when the due check
`utcnow() >= last_log_upload_time + LOG_UPLOAD_PERIOD` passes, the body runs
`update_host_plugin_from_goal_state()`, then `collect_and_upload_logs()`, and
only if both return normally sets `last_log_upload_time = utcnow()` (this
assignment is the last statement of the `if`, not a `finally`).  Returns the
new `last_log_upload_time`, the diagnostic events emitted, whether the due
check passed, whether `put_vm_logs` was invoked, and the exception (if any)
escaping the block. -/
def daemon_try_body (last_log_upload_time : Option Int) (inp : CycleInputs) :
    Option Int × List DiagEvent × Bool × Bool × Option String :=
  let last1 : Int :=
    match last_log_upload_time with
    | none => inp.now - LOG_UPLOAD_PERIOD
    | some t => t
  if last1 + LOG_UPLOAD_PERIOD ≤ inp.now then
    match inp.refreshResult with
    | some e => (some last1, [], true, false, some e)
    | none =>
      let r := collect_and_upload_logs inp.collectResult inp.archive_size inp.duration
        inp.uploadResult
      match r.2.2 with
      | some e => (some last1, r.1, true, r.2.1, some e)
      | none => (some inp.now, r.1, true, r.2.1, none)
  else
    (some last1, [], false, false, none)

/-- One full iteration of the `while` loop of `daemon` (lines 74-87): the
`except` catches any exception escaping the `try` block and logs a warning;
the iteration always completes and the loop proceeds to its `time.sleep`. -/
def daemon_iteration (last_log_upload_time : Option Int) (inp : CycleInputs) : IterationResult :=
  match daemon_try_body last_log_upload_time inp with
  | (l, evs, due, up, some _) =>
    { last_log_upload_time := l, events := evs, due := due, uploadInvoked := up, warned := true }
  | (l, evs, due, up, none) =>
    { last_log_upload_time := l, events := evs, due := due, uploadInvoked := up, warned := false }

/-- The `daemon` loop run over a finite list of iteration inputs: threads
`last_log_upload_time` through `daemon_iteration` and records every
iteration's outcome. -/
def daemon_loop (last_log_upload_time : Option Int) :
    List CycleInputs → Option Int × List IterationResult
  | [] => (last_log_upload_time, [])
  | inp :: rest =>
    let r := daemon_iteration last_log_upload_time inp
    let p := daemon_loop r.last_log_upload_time rest
    (p.1, r :: p.2)

/-! ### Helper lemmas about the two `run` variants -/

theorem run_invoked_eq (op : PeriodicOperation) (now : Nat) (res : Option String) :
    (op.run now res).invoked = decide (op.next_run_time ≤ now) := by
  rcases res with _ | e <;> unfold PeriodicOperation.run
  · split <;> simp_all
  · split
    · dsimp only
      split <;> simp_all
    · simp_all

theorem run_state_next_eq (op : PeriodicOperation) (now : Nat) (res : Option String) :
    (op.run now res).state.next_run_time =
      if op.next_run_time ≤ now then now + op.period else op.next_run_time := by
  rcases res with _ | e <;> unfold PeriodicOperation.run
  · split <;> simp_all
  · split
    · dsimp only
      split <;> simp_all
    · simp_all

theorem run_state_period_eq (op : PeriodicOperation) (now : Nat) (res : Option String) :
    (op.run now res).state.period = op.period := by
  rcases res with _ | e <;> unfold PeriodicOperation.run
  · split <;> simp_all
  · split
    · dsimp only
      split <;> simp_all
    · simp_all

theorem head_run_invoked_eq (op : PeriodicOperationHead) (now : Nat) (res : Option String) :
    (op.run now res).invoked = headDue op.last_run op.period now := by
  rcases res with _ | e <;> unfold PeriodicOperationHead.run
  · split <;> simp_all
  · split
    · dsimp only
      split <;> simp_all
    · simp_all

theorem head_run_state_last_eq (op : PeriodicOperationHead) (now : Nat) (res : Option String) :
    (op.run now res).state.last_run =
      if headDue op.last_run op.period now then some now else op.last_run := by
  rcases res with _ | e <;> unfold PeriodicOperationHead.run
  · split <;> simp_all
  · split
    · dsimp only
      split <;> simp_all
    · simp_all

theorem head_run_state_period_eq (op : PeriodicOperationHead) (now : Nat) (res : Option String) :
    (op.run now res).state.period = op.period := by
  rcases res with _ | e <;> unfold PeriodicOperationHead.run
  · split <;> simp_all
  · split
    · dsimp only
      split <;> simp_all
    · simp_all

/-! ### C1: the due-time update runs even on failure -/

/-- C1: for every task, after a `run` call in which the task is due (so the
action is invoked), `_next_run_time` equals `now + period`, both when the
action returns normally and when it raises. -/
theorem C1_next_due_updated_even_on_failure (op : PeriodicOperation) (now : Nat)
    (actionResult : Option String) (hdue : op.next_run_time ≤ now) :
    (op.run now actionResult).invoked = true ∧
    (op.run now actionResult).state.next_run_time = now + op.period := by
  refine ⟨?_, ?_⟩
  · rw [run_invoked_eq]
    simp [hdue]
  · rw [run_state_next_eq]
    simp [hdue]

/-- Witness for C1 at a concrete due task whose action raises. -/
theorem C1_witness :
    (PeriodicOperation.init "op" 5 0).next_run_time ≤ 2 ∧
    (((PeriodicOperation.init "op" 5 0).run 2 (some "boom")).invoked = true ∧
     ((PeriodicOperation.init "op" 5 0).run 2 (some "boom")).state.next_run_time =
       2 + (PeriodicOperation.init "op" 5 0).period) :=
  ⟨by decide, C1_next_due_updated_even_on_failure (PeriodicOperation.init "op" 5 0) 2
    (some "boom") (by decide)⟩

/-! ### C9: a task that has never run is immediately due -/

/-- C9: immediately after construction at time `t0`, for any `now ≥ t0`,
`time_until_due now = 0`, the initial `_next_run_time` is the construction
time (hence `≤ now`), and the first `run` invokes the action. -/
theorem C9_fresh_task_immediately_due (name : String) (period t0 now : Nat)
    (res : Option String) (h : t0 ≤ now) :
    (PeriodicOperation.init name period t0).time_until_due now = 0 ∧
    (PeriodicOperation.init name period t0).next_run_time ≤ now ∧
    ((PeriodicOperation.init name period t0).run now res).invoked = true := by
  refine ⟨?_, h, ?_⟩
  · simp [PeriodicOperation.time_until_due, PeriodicOperation.init]
    omega
  · rw [run_invoked_eq]
    simp [PeriodicOperation.init, h]

/-- Witness for C9 at a concrete fresh task. -/
theorem C9_witness :
    (0 : Nat) ≤ 7 ∧
    ((PeriodicOperation.init "task" 3600 0).time_until_due 7 = 0 ∧
     (PeriodicOperation.init "task" 3600 0).next_run_time ≤ 7 ∧
     ((PeriodicOperation.init "task" 3600 0).run 7 none).invoked = true) :=
  ⟨by decide, C9_fresh_task_immediately_due "task" 3600 0 7 none (by decide)⟩

/-! ### C7: not-due calls are no-ops; two immediate calls invoke at most once -/

/-- C7: if `now < _next_run_time` then `run` does not invoke the action and
leaves the state unchanged; and two `run` calls with the second at a time
before the first call's time plus the period invoke the action at most once. -/
theorem C7_not_due_noop_and_at_most_once (op : PeriodicOperation) (now now2 : Nat)
    (r1 r2 : Option String) (hle : now ≤ now2) (hlt : now2 < now + op.period) :
    (now < op.next_run_time →
      op.run now r1 = { state := op, invoked := false, warned := false }) ∧
    ¬((op.run now r1).invoked = true ∧ ((op.run now r1).state.run now2 r2).invoked = true) := by
  constructor
  · intro hnd
    unfold PeriodicOperation.run
    rw [if_neg (by omega)]
  · rintro ⟨h1, h2⟩
    rw [run_invoked_eq] at h1 h2
    rw [run_state_next_eq] at h2
    simp only [decide_eq_true_eq] at h1
    rw [if_pos h1] at h2
    simp only [decide_eq_true_eq] at h2
    omega

/-- Witness for C7 at a concrete task called twice at times 0 and 1 with
period 5. -/
theorem C7_witness :
    (0 : Nat) ≤ 1 ∧ (1 : Nat) < 0 + (PeriodicOperation.init "op" 5 0).period ∧
    ((0 < (PeriodicOperation.init "op" 5 0).next_run_time →
      (PeriodicOperation.init "op" 5 0).run 0 none =
        { state := PeriodicOperation.init "op" 5 0, invoked := false, warned := false }) ∧
     ¬(((PeriodicOperation.init "op" 5 0).run 0 none).invoked = true ∧
       (((PeriodicOperation.init "op" 5 0).run 0 none).state.run 1 none).invoked = true)) :=
  ⟨by decide, by decide,
    C7_not_due_noop_and_at_most_once (PeriodicOperation.init "op" 5 0) 0 1 none none
      (by decide) (by decide)⟩

/-! ### C2: warning de-duplication -/

theorem shouldWarn_iff (lw : Option String) (lwt : Option Nat) (w : String) (now : Nat) :
    shouldWarn lw lwt w now = true ↔
      (some w ≠ lw ∨ lwt = none ∨ ∃ t, lwt = some t ∧ t + LOG_WARNING_PERIOD ≤ now) := by
  rcases lwt with _ | t <;> simp [shouldWarn]

theorem run_raise_warned_eq (op : PeriodicOperation) (now : Nat) (e : String)
    (hdue : op.next_run_time ≤ now) :
    (op.run now (some e)).warned =
      shouldWarn op.last_warning op.last_warning_time (mkWarning op.name e) now := by
  unfold PeriodicOperation.run
  rw [if_pos hdue]
  dsimp only
  split <;> simp_all

theorem run_raise_warned_state (op : PeriodicOperation) (now : Nat) (e : String)
    (hdue : op.next_run_time ≤ now) (hw : (op.run now (some e)).warned = true) :
    (op.run now (some e)).state =
      { op with
        next_run_time := now + op.period,
        last_warning := some (mkWarning op.name e), last_warning_time := some now } := by
  unfold PeriodicOperation.run at hw ⊢
  rw [if_pos hdue] at hw ⊢
  dsimp only at hw ⊢
  split at hw
  · split <;> simp_all
  · simp_all

/-- C2: for a due task whose action raises, a warning is emitted exactly when
the constructed message differs from `_last_warning`, or `_last_warning_time`
is unset, or at least `LOG_WARNING_PERIOD` has elapsed since
`_last_warning_time`; in particular, after a run that emitted a warning, an
identical failure on a later due run emits no warning while less than the
cooldown has elapsed, and does emit one once the cooldown has elapsed. -/
theorem C2_warning_deduplication (op : PeriodicOperation) (now now2 : Nat) (e : String)
    (hdue : op.next_run_time ≤ now) :
    ((op.run now (some e)).warned = true ↔
      (some (mkWarning op.name e) ≠ op.last_warning ∨ op.last_warning_time = none ∨
        ∃ t, op.last_warning_time = some t ∧ t + LOG_WARNING_PERIOD ≤ now)) ∧
    ((op.run now (some e)).warned = true →
      (op.run now (some e)).state.next_run_time ≤ now2 →
      ((now2 < now + LOG_WARNING_PERIOD →
          ((op.run now (some e)).state.run now2 (some e)).warned = false) ∧
       (now + LOG_WARNING_PERIOD ≤ now2 →
          ((op.run now (some e)).state.run now2 (some e)).warned = true))) := by
  constructor
  · rw [run_raise_warned_eq op now e hdue]
    exact shouldWarn_iff op.last_warning op.last_warning_time (mkWarning op.name e) now
  · intro hw hdue2
    rw [run_raise_warned_state op now e hdue hw] at hdue2 ⊢
    rw [run_raise_warned_eq _ now2 e hdue2]
    constructor
    · intro hcool
      simp [shouldWarn]
      omega
    · intro hcool
      simp [shouldWarn]
      omega

/-- Witness for C2 at a concrete fresh task failing identically at times 0
and 1 (well inside the 3600-second cooldown). -/
theorem C2_witness :
    (PeriodicOperation.init "op" 1 0).next_run_time ≤ 0 ∧
    ((((PeriodicOperation.init "op" 1 0).run 0 (some "boom")).warned = true ↔
      (some (mkWarning (PeriodicOperation.init "op" 1 0).name "boom") ≠
          (PeriodicOperation.init "op" 1 0).last_warning ∨
        (PeriodicOperation.init "op" 1 0).last_warning_time = none ∨
        ∃ t, (PeriodicOperation.init "op" 1 0).last_warning_time = some t ∧
          t + LOG_WARNING_PERIOD ≤ 0)) ∧
     (((PeriodicOperation.init "op" 1 0).run 0 (some "boom")).warned = true →
      ((PeriodicOperation.init "op" 1 0).run 0 (some "boom")).state.next_run_time ≤ 1 →
      ((1 < 0 + LOG_WARNING_PERIOD →
          (((PeriodicOperation.init "op" 1 0).run 0 (some "boom")).state.run 1
            (some "boom")).warned = false) ∧
       (0 + LOG_WARNING_PERIOD ≤ 1 →
          (((PeriodicOperation.init "op" 1 0).run 0 (some "boom")).state.run 1
            (some "boom")).warned = true)))) :=
  ⟨by decide, C2_warning_deduplication (PeriodicOperation.init "op" 1 0) 0 1 "boom" (by decide)⟩

/-! ### C3 and C5: the scheduler's minimum-wait computation -/

theorem foldl_min_sub (c : Nat) (xs : List Nat) : ∀ a : Nat,
    (xs.map (fun x => x - c)).foldl Nat.min (a - c) = xs.foldl Nat.min a - c := by
  induction xs with
  | nil => intro a; rfl
  | cons y ys ih =>
    intro a
    simp only [List.map_cons, List.foldl_cons]
    have hmin : Nat.min (a - c) (y - c) = Nat.min a y - c := by
      rcases Nat.le_total a y with hab | hab <;>
        simp [Nat.min_def, hab] <;> omega
    rw [hmin, ih]

theorem pyMin_map_sub (c : Nat) (l : List Nat) :
    pyMin (l.map (fun x => x - c)) = (pyMin l).map (fun x => x - c) := by
  cases l with
  | nil => rfl
  | cons x xs => simp [pyMin, foldl_min_sub]

/-- C3: for a non-empty operations list, `sleep_until_next_operation` blocks
the caller for exactly the minimum of the tasks' `time_until_due` values (and
that minimum is `0` — an immediate return — exactly when the raw
`sleep_seconds` is zero or negative, since `time_until_due` is the difference
clamped at zero). -/
theorem C3_scheduler_minimum_wait (operations : List PeriodicOperation) (now : Nat)
    (h : operations ≠ []) :
    ∃ m : Nat, pyMin (operations.map (fun op => op.time_until_due now)) = some m ∧
      sleep_until_next_operation operations now = some (m : Int) := by
  have hmap : operations.map (fun op => op.time_until_due now) =
      (operations.map (fun op => op.next_run_time)).map (fun x => x - now) := by
    simp [List.map_map, PeriodicOperation.time_until_due]
  rcases hpm : pyMin (operations.map (fun op => op.next_run_time)) with _ | M
  · rcases operations with _ | ⟨op, ops⟩
    · exact absurd rfl h
    · simp [pyMin] at hpm
  · refine ⟨M - now, ?_, ?_⟩
    · rw [hmap, pyMin_map_sub, hpm]; rfl
    · unfold sleep_until_next_operation
      rw [hpm]
      dsimp only
      congr 1
      split <;> omega

/-- Witness for C3 with tasks due in 5, 2 and 9 seconds at `now = 100`:
the computed wait is 2 seconds. -/
theorem C3_witness :
    ([PeriodicOperation.init "a" 60 105, PeriodicOperation.init "b" 60 102,
      PeriodicOperation.init "c" 60 109] ≠ ([] : List PeriodicOperation)) ∧
    ∃ m : Nat,
      pyMin (([PeriodicOperation.init "a" 60 105, PeriodicOperation.init "b" 60 102,
        PeriodicOperation.init "c" 60 109]).map (fun op => op.time_until_due 100)) = some m ∧
      sleep_until_next_operation [PeriodicOperation.init "a" 60 105,
        PeriodicOperation.init "b" 60 102, PeriodicOperation.init "c" 60 109] 100 =
          some (m : Int) :=
  ⟨by decide,
    C3_scheduler_minimum_wait [PeriodicOperation.init "a" 60 105,
      PeriodicOperation.init "b" 60 102, PeriodicOperation.init "c" 60 109] 100 (by decide)⟩

/-- C5 counterexample: with no registered operations and `now = 0`,
`sleep_until_next_operation` does not return a wait: `min([])` raises
`ValueError`, modelled as `none`, contradicting the claim that the call
returns immediately rather than raising an error. -/
theorem C5_counterexample : sleep_until_next_operation [] 0 = none := rfl

/-- C5 amended: when no tasks are registered, `sleep_until_next_operation`
raises `ValueError` (Python's `min` of an empty sequence) instead of
returning; the host must not call it with an empty operations list. -/
theorem C5_empty_operations_raise (now : Nat) :
    sleep_until_next_operation [] now = none := rfl

/-! ### C4, C6, C8: the log-upload worker loop -/

theorem daemon_iteration_eq (last : Option Int) (inp : CycleInputs) :
    daemon_iteration last inp =
      { last_log_upload_time := (daemon_try_body last inp).1,
        events := (daemon_try_body last inp).2.1,
        due := (daemon_try_body last inp).2.2.1,
        uploadInvoked := (daemon_try_body last inp).2.2.2.1,
        warned := ((daemon_try_body last inp).2.2.2.2).isSome } := by
  unfold daemon_iteration
  rcases h : daemon_try_body last inp with ⟨l, evs, due, up, exc⟩
  rcases exc with _ | e <;> simp

/-- C4 counterexample: at a due cycle starting from
`last_log_upload_time = some 0` at `now = 3600` whose refresh step raises,
`last_log_upload_time` is not advanced to `now`: it stays `some 0`. -/
theorem C4_counterexample :
    (daemon_iteration (some 0)
      { now := 3600, refreshResult := some "boom", collectResult := Except.ok "p",
        archive_size := 0, duration := 0, uploadResult := none }).due = true ∧
    (daemon_iteration (some 0)
      { now := 3600, refreshResult := some "boom", collectResult := Except.ok "p",
        archive_size := 0, duration := 0, uploadResult := none }).last_log_upload_time =
      some 0 ∧
    some (0 : Int) ≠ some (3600 : Int) := by
  refine ⟨by decide, by decide, by decide⟩

/-- C4 amended: after a due worker cycle, `last_log_upload_time` is advanced
to `now` exactly when the cycle body (refresh, collect-and-upload) raises no
exception — a collect failure is swallowed inside `collect_and_upload_logs`
and therefore still advances it; when the body raises (refresh or upload),
`last_log_upload_time` keeps its previous value (or `now - LOG_UPLOAD_PERIOD`
when it had been `None`, set by the never-ran initialization). -/
theorem C4_last_cycle_advanced_iff_no_raise (last : Option Int) (inp : CycleInputs)
    (hdue : (daemon_iteration last inp).due = true) :
    ((daemon_iteration last inp).warned = false →
      (daemon_iteration last inp).last_log_upload_time = some inp.now) ∧
    ((daemon_iteration last inp).warned = true →
      (daemon_iteration last inp).last_log_upload_time =
        some (match last with
              | none => inp.now - LOG_UPLOAD_PERIOD
              | some t => t)) := by
  rw [daemon_iteration_eq] at hdue ⊢
  obtain ⟨now, refreshR, collectR, sz, dur, upR⟩ := inp
  unfold daemon_try_body at hdue ⊢
  rcases last with _ | t <;> dsimp only at hdue ⊢ <;>
    split at hdue <;> rcases refreshR with _ | re <;>
    rcases collectR with ce | cp <;> rcases upR with _ | ue <;>
    simp_all [collect_and_upload_logs]

/-- Witness for C4 (amended) at a due cycle whose upload step raises:
`last_log_upload_time` stays `some 0` rather than advancing to `3600`. -/
theorem C4_witness :
    (daemon_iteration (some 0)
      { now := 3600, refreshResult := none, collectResult := Except.ok "p",
        archive_size := 7, duration := 5, uploadResult := some "upload failed" }).due = true ∧
    (((daemon_iteration (some 0)
      { now := 3600, refreshResult := none, collectResult := Except.ok "p",
        archive_size := 7, duration := 5, uploadResult := some "upload failed" }).warned =
          false →
      (daemon_iteration (some 0)
        { now := 3600, refreshResult := none, collectResult := Except.ok "p",
          archive_size := 7, duration := 5,
          uploadResult := some "upload failed" }).last_log_upload_time = some 3600) ∧
     ((daemon_iteration (some 0)
      { now := 3600, refreshResult := none, collectResult := Except.ok "p",
        archive_size := 7, duration := 5, uploadResult := some "upload failed" }).warned =
          true →
      (daemon_iteration (some 0)
        { now := 3600, refreshResult := none, collectResult := Except.ok "p",
          archive_size := 7, duration := 5,
          uploadResult := some "upload failed" }).last_log_upload_time =
        some (match (some (0 : Int) : Option Int) with
              | none => (3600 : Int) - LOG_UPLOAD_PERIOD
              | some t => t))) :=
  ⟨by decide,
    C4_last_cycle_advanced_iff_no_raise (some 0)
      { now := 3600, refreshResult := none, collectResult := Except.ok "p",
        archive_size := 7, duration := 5, uploadResult := some "upload failed" } (by decide)⟩

/-- C6: in a due cycle whose refresh step returns normally and whose collect
step fails, exactly one diagnostic event is emitted, it is a failure event,
the upload step is not invoked, and the failure does not escape
`collect_and_upload_logs` (so the outer loop logs no warning). -/
theorem C6_collect_failure_isolated (last : Option Int) (inp : CycleInputs) (e : String)
    (hcol : inp.collectResult = Except.error e) (href : inp.refreshResult = none)
    (hdue : (daemon_iteration last inp).due = true) :
    (daemon_iteration last inp).events.length = 1 ∧
    (∀ ev ∈ (daemon_iteration last inp).events, ev.is_success = false) ∧
    (daemon_iteration last inp).uploadInvoked = false ∧
    (daemon_iteration last inp).warned = false := by
  rw [daemon_iteration_eq] at hdue ⊢
  obtain ⟨now, refreshR, collectR, sz, dur, upR⟩ := inp
  dsimp only at hcol href
  subst hcol href
  unfold daemon_try_body at hdue ⊢
  rcases last with _ | t <;> dsimp only at hdue ⊢ <;>
    split at hdue <;> simp_all [collect_and_upload_logs]

/-- Witness for C6 at a concrete due cycle whose collect step fails. -/
theorem C6_witness :
    ({ now := 3600, refreshResult := none, collectResult := Except.error "disk full",
       archive_size := 0, duration := 9,
       uploadResult := none } : CycleInputs).collectResult = Except.error "disk full" ∧
    ({ now := 3600, refreshResult := none, collectResult := Except.error "disk full",
       archive_size := 0, duration := 9,
       uploadResult := none } : CycleInputs).refreshResult = none ∧
    (daemon_iteration (some 0)
      { now := 3600, refreshResult := none, collectResult := Except.error "disk full",
        archive_size := 0, duration := 9, uploadResult := none }).due = true ∧
    ((daemon_iteration (some 0)
      { now := 3600, refreshResult := none, collectResult := Except.error "disk full",
        archive_size := 0, duration := 9, uploadResult := none }).events.length = 1 ∧
     (∀ ev ∈ (daemon_iteration (some 0)
      { now := 3600, refreshResult := none, collectResult := Except.error "disk full",
        archive_size := 0, duration := 9, uploadResult := none }).events,
        ev.is_success = false) ∧
     (daemon_iteration (some 0)
      { now := 3600, refreshResult := none, collectResult := Except.error "disk full",
        archive_size := 0, duration := 9, uploadResult := none }).uploadInvoked = false ∧
     (daemon_iteration (some 0)
      { now := 3600, refreshResult := none, collectResult := Except.error "disk full",
        archive_size := 0, duration := 9, uploadResult := none }).warned = false) :=
  ⟨rfl, rfl, by decide,
    C6_collect_failure_isolated (some 0)
      { now := 3600, refreshResult := none, collectResult := Except.error "disk full",
        archive_size := 0, duration := 9, uploadResult := none } "disk full" rfl rfl
      (by decide)⟩

/-- C8: every exception raised by the body of a `daemon` loop iteration is
caught by the iteration's `except` (the iteration completes and reports
`warned` exactly when the body raised), and the loop processes every
iteration: a cycle's failure never terminates the loop early. -/
theorem C8_loop_never_escapes (last : Option Int) (inps : List CycleInputs) :
    (∀ l inp, (daemon_iteration l inp).warned = ((daemon_try_body l inp).2.2.2.2).isSome) ∧
    (daemon_loop last inps).2.length = inps.length := by
  constructor
  · intro l inp
    rw [daemon_iteration_eq]
  · induction inps generalizing last with
    | nil => rfl
    | cons i rest ih => simp [daemon_loop, ih]

/-! ### C10: the two `run` variants make identical due decisions -/

theorem trace_eq_aux (t0 : Nat) (calls : List (Nat × Option String)) :
    ∀ (h : PeriodicOperationHead) (r : PeriodicOperation),
    h.period = r.period →
    ((h.last_run = none ∧ r.next_run_time = t0) ∨
      (∃ lr, h.last_run = some lr ∧ r.next_run_time = lr + r.period)) →
    (∀ c ∈ calls, t0 ≤ c.1) →
    headTrace h calls = relTrace r calls := by
  induction calls with
  | nil =>
    intro h r _ _ _
    rfl
  | cons c rest ih =>
    intro h r hper hinv hge
    have hmem : t0 ≤ c.1 := hge c (List.mem_cons_self c rest)
    have hge' : ∀ x ∈ rest, t0 ≤ x.1 := fun x hx => hge x (List.mem_cons_of_mem c hx)
    simp only [headTrace, relTrace]
    have hinvoked : (h.run c.1 c.2).invoked = (r.run c.1 c.2).invoked := by
      rw [head_run_invoked_eq, run_invoked_eq]
      rcases hinv with ⟨hl, hn⟩ | ⟨lr, hl, hn⟩
      · rw [hl, hn]
        simp [headDue, hmem]
      · rw [hl, hn, hper]
        simp [headDue]
    rw [hinvoked]
    congr 1
    apply ih
    · rw [head_run_state_period_eq, run_state_period_eq]
      exact hper
    · rcases hinv with ⟨hl, hn⟩ | ⟨lr, hl, hn⟩
      · right
        refine ⟨c.1, ?_, ?_⟩
        · rw [head_run_state_last_eq, hl]
          simp [headDue]
        · rw [run_state_next_eq, run_state_period_eq, hn]
          simp [hmem]
      · by_cases hdue : lr + r.period ≤ c.1
        · right
          refine ⟨c.1, ?_, ?_⟩
          · rw [head_run_state_last_eq, hl, hper]
            simp [headDue, hdue]
          · rw [run_state_next_eq, run_state_period_eq, hn]
            simp [hdue]
        · right
          refine ⟨lr, ?_, ?_⟩
          · rw [head_run_state_last_eq, hl, hper]
            simp [headDue, hdue]
          · rw [run_state_next_eq, run_state_period_eq, hn]
            simp [hdue]
    · exact hge'

/-- C10: the HEAD variant of `run` (tracking `_last_run`, with `None` meaning
never run) and the release-2.2.53 variant (tracking `_next_run_time`
initialized to the construction time `t0`) invoke the operation at exactly
the same calls: over every sequence of non-decreasing clock readings starting
at or after `t0`, the two variants produce the same due/not-due decision
trace. -/
theorem C10_variants_equivalent (name : String) (period t0 : Nat)
    (calls : List (Nat × Option String))
    (hmono : List.Chain' (fun a b => a.1 ≤ b.1) calls)
    (hge : ∀ c ∈ calls, t0 ≤ c.1) :
    headTrace (PeriodicOperationHead.init name period) calls =
      relTrace (PeriodicOperation.init name period t0) calls := by
  apply trace_eq_aux t0 calls
  · rfl
  · left
    exact ⟨rfl, rfl⟩
  · exact hge

/-- Witness for C10 over the calls at times 0, 1 and 5 (the middle call's
action raising) with period 3 and construction time 0. -/
theorem C10_witness :
    List.Chain' (fun a b => a.1 ≤ b.1)
      [((0 : Nat), (none : Option String)), (1, some "e"), (5, none)] ∧
    (∀ c ∈ [((0 : Nat), (none : Option String)), (1, some "e"), (5, none)],
      (0 : Nat) ≤ c.1) ∧
    headTrace (PeriodicOperationHead.init "op" 3)
        [((0 : Nat), (none : Option String)), (1, some "e"), (5, none)] =
      relTrace (PeriodicOperation.init "op" 3 0)
        [((0 : Nat), (none : Option String)), (1, some "e"), (5, none)] :=
  ⟨by simp [List.chain'_cons], by decide,
    C10_variants_equivalent "op" 3 0
      [((0 : Nat), (none : Option String)), (1, some "e"), (5, none)]
      (by simp [List.chain'_cons]) (by decide)⟩
